import Mathlib

/-
Verification of the SEA cryptographic envelope subsystem
(src/internals/sea.ts, streaming variant).

Byte buffers are modelled as lists of naturals (each element one byte).
File input and output is modelled by passing file contents as byte lists.
The external Node primitives (RSA via publicEncrypt / privateDecrypt /
privateEncrypt / publicDecrypt, SHA-256, AES-128-CBC, scrypt, and the
Buffer utf-8 / base64 codecs) are fields of a Crypto structure; fallible
primitives return Except. Properties those external primitives are
documented to satisfy appear as explicit hypotheses of the theorems.
-/

deriving instance DecidableEq for Except

namespace SEA

/-- A byte buffer: a list of byte values. -/
abbrev Bytes := List Nat

/-- Key pair, as in the source: an opaque public and private component. -/
structure Pair where
  pub : String
  priv : String

/-- External cryptographic and codec primitives used by the SEA class.
publicEncrypt, privateEncrypt, sha256, aesEnc, scryptKDF are total;
privateDecrypt, publicDecrypt and aesDec can throw, modelled by Except.
utf8Enc models Buffer.from(s, utf-8), utf8Dec models buf.toString(utf-8)
(which replaces invalid sequences), b64Enc models buf.toString(base64),
b64Dec models Buffer.from(s, base64). -/
structure Crypto where
  publicEncrypt : String → Bytes → Bytes
  privateDecrypt : String → Bytes → Except String Bytes
  privateEncrypt : String → Bytes → Bytes
  publicDecrypt : String → Bytes → Except String Bytes
  sha256 : Bytes → Bytes
  aesEnc : Bytes → Bytes → Bytes → Bytes
  aesDec : Bytes → Bytes → Bytes → Except String Bytes
  scryptKDF : String → String → Nat → Bytes
  utf8Enc : String → Bytes
  utf8Dec : Bytes → String
  b64Enc : Bytes → String
  b64Dec : String → Bytes

/-- State of an incremental Node hash object: the bytes streamed so far.
Node documents hash.update as accumulating streamed data; the digest is
computed over the whole accumulated stream. -/
structure HashState where
  acc : Bytes

/-- hash.update(chunk): append the chunk to the accumulated stream. -/
def HashState.update (s : HashState) (chunk : Bytes) : HashState :=
  ⟨s.acc ++ chunk⟩

/-- hash.digest(base64): digest of the accumulated bytes, base64 encoded. -/
def HashState.digest (s : HashState) (C : Crypto) : String :=
  C.b64Enc (C.sha256 s.acc)

/-- SEA.encryptForAddress: publicEncrypt the utf-8 bytes of data, base64. -/
def encryptForAddress (C : Crypto) (data : String) (pub : String) : String :=
  C.b64Enc (C.publicEncrypt pub (C.utf8Enc data))

/-- SEA.encrypt: encryptForAddress with the public half of the pair. -/
def encrypt (C : Crypto) (data : String) (key : Pair) : String :=
  encryptForAddress C data key.pub

/-- SEA.decrypt: privateDecrypt the base64 payload, decode as utf-8. -/
def decrypt (C : Crypto) (data : String) (key : Pair) : Except String String :=
  (C.privateDecrypt key.priv (C.b64Dec data)).map C.utf8Dec

/-- SEA.sign: privateEncrypt the utf-8 bytes of data, base64. -/
def sign (C : Crypto) (data : String) (key : Pair) : String :=
  C.b64Enc (C.privateEncrypt key.priv (C.utf8Enc data))

/-- SEA.verifyViaAddress: recover the MAC with publicDecrypt and compare
with the expected string; any recovery exception is caught and turned
into the result false. -/
def verifyViaAddress (C : Crypto) (pub data expected : String) : Bool :=
  match C.publicDecrypt pub (C.b64Dec data) with
  | .ok mac => C.utf8Dec mac == expected
  | .error _ => false

/-- SEA.verify: verifyViaAddress with the public half of the pair. -/
def verify (C : Crypto) (key : Pair) (data expected : String) : Bool :=
  verifyViaAddress C key.pub data expected

/-- SEA.hash: createHash(sha256).update(data).digest(base64). -/
def hash (C : Crypto) (data : String) : String :=
  (HashState.update ⟨[]⟩ (C.utf8Enc data)).digest C

/-- SEA.work: scrypt(data, salt, length), base64 encoded. -/
def work (C : Crypto) (data salt : String) (length : Nat) : String :=
  C.b64Enc (C.scryptKDF data salt length)

/-- SEA.toInt32: a 4-byte big-endian buffer holding num as an unsigned
32-bit value (DataView.setUint32 converts via modulo 2^32). -/
def toInt32 (num : Nat) : Bytes :=
  let n := num % 2 ^ 32
  [n / 2 ^ 24 % 256, n / 2 ^ 16 % 256, n / 2 ^ 8 % 256, n % 256]

/-- SEA.hashFile: pipe the file through the hash object, digest base64. -/
def hashFile (C : Crypto) (contents : Bytes) : String :=
  (HashState.update ⟨[]⟩ contents).digest C

/-- SEA.hashFile applied to a file delivered as a stream of chunks:
each chunk is pushed through hash.update in order. -/
def hashFileStreamed (C : Crypto) (chunks : List Bytes) : String :=
  (chunks.foldl HashState.update ⟨[]⟩).digest C

/-- The wrapped secret staged by encryptFile: the key and iv buffers are
utf-8 decoded, joined with a colon, encrypted for the recipient, and the
base64 result is decoded back to bytes for staging. -/
def wrapSecret (C : Crypto) (toPub : String) (key iv : Bytes) : Bytes :=
  C.b64Dec (encryptForAddress C (C.utf8Dec key ++ ":" ++ C.utf8Dec iv) toPub)

/-- The staged ciphertext of encryptFile: the source piped through
createCipheriv(aes-128-cbc, key, iv). -/
def cipherContent (C : Crypto) (key iv source : Bytes) : Bytes :=
  C.aesEnc key iv source

/-- The staged authenticator of encryptFile: the base64 digest of the
ciphertext is decoded to bytes, utf-8 decoded, signed with the sender
key, and the base64 signature is decoded back to bytes. -/
def envMac (C : Crypto) (from_key : Pair) (content : Bytes) : Bytes :=
  C.b64Dec (sign C (C.utf8Dec (C.b64Dec (hashFile C content))) from_key)

/-- SEA.encryptFile: the destination file is the concatenation of the
4-byte MAC length, the 4-byte key length, the MAC, the wrapped key and
the ciphertext. The fresh random key and iv buffers are passed in. -/
def encryptFile (C : Crypto) (source : Bytes) (from_key : Pair) (toPub : String)
    (key iv : Bytes) : Bytes :=
  let key_bin := wrapSecret C toPub key iv
  let content := cipherContent C key iv source
  let mac_bin := envMac C from_key content
  toInt32 mac_bin.length ++ toInt32 key_bin.length ++ mac_bin ++ key_bin ++ content

/-- SEA.readChunkFromFile: Buffer.alloc(end - start) is zero filled and
fs.read copies the bytes present in the file from position start; bytes
past the end of the file stay zero. fin is the exclusive end index. -/
def readChunkFromFile (contents : Bytes) (start fin : Nat) : Bytes :=
  (List.range (fin - start)).map fun i => contents.getD (start + i) 0

/-- Buffer.readInt32BE: big-endian unsigned value of the first four
bytes, reinterpreted as a signed 32-bit integer. -/
def readInt32BE (buf : Bytes) : Int :=
  let u := ((buf.getD 0 0 * 256 + buf.getD 1 0) * 256 + buf.getD 2 0) * 256 + buf.getD 3 0
  if u < 2 ^ 31 then (u : Int) else (u : Int) - 2 ^ 32

/-- Events recorded while decryptFile runs, in execution order: the MAC
verification with its outcome, the privateDecrypt of the wrapped secret,
and the AES decryption of the ciphertext. -/
inductive Ev where
  | verifyMac : Bool → Ev
  | decryptSecret : Ev
  | decryptContent : Ev
deriving DecidableEq

/-- createReadStream with inclusive start and end offsets: Node throws
ERR_OUT_OF_RANGE when end is below start, otherwise delivers the bytes
of the file inside the range (truncated at end of file). -/
def streamRange (b : Bytes) (start fin : Nat) : Except String Bytes :=
  if fin < start then .error "ERR_OUT_OF_RANGE"
  else .ok ((b.drop start).take (fin + 1 - start))

/-- SEA.decryptFile on the envelope bytes, returning the destination
contents (or the thrown error) together with the trace of events. The
two length prefixes are read with readChunkFromFile and readInt32BE, the
three regions are isolated with ranged read streams, the MAC is verified
against the recomputed digest, and only then are the wrapped secret and
the ciphertext decrypted. -/
def decryptFile (C : Crypto) (envelope : Bytes) (sender : String)
    (receiver_key : Pair) : Except String Bytes × List Ev :=
  let size_mac := readInt32BE (readChunkFromFile envelope 0 4)
  let size_key := readInt32BE (readChunkFromFile envelope 4 8)
  if size_mac < 0 ∨ size_key < 0 then (.error "ERR_OUT_OF_RANGE", [])
  else
    let m := size_mac.toNat
    let k := size_key.toNat
    match streamRange envelope (4 + 4) (4 + 4 + m - 1) with
    | .error e => (.error e, [])
    | .ok mac =>
      match streamRange envelope (4 + 4 + m) (4 + 4 + m + k - 1) with
      | .error e => (.error e, [])
      | .ok key_enc =>
        let content := envelope.drop (4 + 4 + m + k)
        let mac_base64 := C.b64Enc mac
        let hashed := hashFile C content
        let is_safe := verifyViaAddress C sender mac_base64 hashed
        if is_safe then
          match decrypt C (C.b64Enc key_enc) receiver_key with
          | .error e => (.error e, [.verifyMac true, .decryptSecret])
          | .ok key_raw_utf8 =>
            let parts := key_raw_utf8.splitOn ":"
            match parts.get? 1 with
            | none => (.error "TypeError", [.verifyMac true, .decryptSecret])
            | some iv_utf8 =>
              let key := C.utf8Enc (parts.headD "")
              let iv := C.utf8Enc iv_utf8
              match C.aesDec key iv content with
              | .error e => (.error e, [.verifyMac true, .decryptSecret, .decryptContent])
              | .ok plain => (.ok plain, [.verifyMac true, .decryptSecret, .decryptContent])
        else (.error "File integrity failed.", [.verifyMac false])

/-- Big-endian unsigned word denoted by a byte buffer; used to state the
layout properties of the envelope header. -/
def beWord (b : Bytes) : Nat :=
  b.foldl (fun a x => a * 256 + x) 0

/-
A small concrete instance of the Crypto structure, used to evaluate the
theorems on closed inputs. The asymmetric primitives are symbolic: a
ciphertext is the payload tagged with the encrypting key, and the
matching key of the pair removes the tag. The utf-8 codec is faithful to
Node for the byte values exercised: ascii bytes decode to themselves and
bytes of value at least 128 decode to the replacement character U+FFFD,
which re-encodes as the three bytes 239, 191, 189.
-/

/-- Code points of a string, one byte per character. -/
def toyStrBytes (s : String) : Bytes := s.data.map Char.toNat

/-- The public key matching a toy private key. -/
def toyPubOfPriv (k : String) : String := "pub:" ++ k.drop 5

/-- The private key matching a toy public key. -/
def toyPrivOfPub (k : String) : String := "priv:" ++ k.drop 4

/-- Tag marking a toy asymmetric ciphertext with the key that made it. -/
def toyTag (s : String) : Bytes := toyStrBytes s ++ [0]

/-- Toy utf-8 encoder: ascii characters become one byte, any other
character becomes the replacement sequence 239, 191, 189. -/
def toyUtf8Enc (s : String) : Bytes :=
  (s.data.map fun c => if c.toNat < 128 then [c.toNat] else [239, 191, 189]).flatten

/-- Toy utf-8 decoder: ascii bytes become themselves, any byte of value
at least 128 becomes the replacement character U+FFFD. -/
def toyUtf8Dec (b : Bytes) : String :=
  String.mk (b.map fun n => if n < 128 then Char.ofNat n else Char.ofNat 65533)

/-- Concrete crypto instance for evaluating the theorems. -/
def toyC : Crypto where
  publicEncrypt := fun pub m => toyTag pub ++ m
  privateDecrypt := fun priv c =>
    let t := toyTag (toyPubOfPriv priv)
    if c.take t.length = t then .ok (c.drop t.length) else .error "DecryptFailure"
  privateEncrypt := fun priv m => toyTag priv ++ m
  publicDecrypt := fun pub c =>
    let t := toyTag (toyPrivOfPub pub)
    if c.take t.length = t then .ok (c.drop t.length) else .error "DecryptFailure"
  sha256 := fun b => 7 :: b
  aesEnc := fun key iv data => key ++ iv ++ data
  aesDec := fun key iv c =>
    if key.length = 16 then
      if c.take key.length = key ∧ (c.drop key.length).take iv.length = iv then
        .ok ((c.drop key.length).drop iv.length)
      else .error "BadDecrypt"
    else .error "Invalid key length"
  scryptKDF := fun p s n => List.replicate n ((p.length + s.length) % 256)
  utf8Enc := toyUtf8Enc
  utf8Dec := toyUtf8Dec
  b64Enc := fun b => String.mk (Char.ofNat 35 :: b.map fun n => Char.ofNat n)
  b64Dec := fun s => (s.data.drop 1).map Char.toNat

/-- Toy sender pair. -/
def pairA : Pair := ⟨"pub:A", "priv:A"⟩

/-- Toy recipient pair. -/
def pairB : Pair := ⟨"pub:B", "priv:B"⟩

/-- C4: for every public key, authenticator string and expected string,
verify returns a boolean and never raises: it is a total function into
Bool, and whenever recovery of the message from the authenticator fails
with any exception, the result is the boolean false. -/
theorem verifyViaAddress_never_raises (C : Crypto) (pub data expected : String) :
    (verifyViaAddress C pub data expected = true ∨
      verifyViaAddress C pub data expected = false) ∧
    (∀ e, C.publicDecrypt pub (C.b64Dec data) = .error e →
      verifyViaAddress C pub data expected = false) := by
  constructor
  · cases hb : verifyViaAddress C pub data expected
    · exact Or.inr rfl
    · exact Or.inl rfl
  · intro e he
    simp only [verifyViaAddress]
    rw [he]

/-- Witness for C4: in the concrete model, recovery of the authenticator
with an empty public key fails, and verify returns false. -/
theorem verifyViaAddress_never_raises_witness :
    verifyViaAddress toyC "" "x" "m" = false :=
  (verifyViaAddress_never_raises toyC "" "x" "m").2 "DecryptFailure" (by decide)

/-- C8: work (deriveSecret) is the base64 of the scrypt output and is a
pure function of (phrase, salt, length), hence deterministic; but the
scrypt keylen parameter counts bytes, so the derived secret holds
8 * length bits, never the promised length bits. -/
theorem work_derived_bits (C : Crypto) (p s : String) (n : Nat)
    (hlen : (C.scryptKDF p s n).length = n) (hn : 0 < n) :
    work C p s n = C.b64Enc (C.scryptKDF p s n) ∧
    8 * (C.scryptKDF p s n).length ≠ n :=
  ⟨rfl, by omega⟩

/-- Witness for C8: asking the concrete model for 8 bits yields a secret
of 8 bytes, that is 64 bits. -/
theorem work_derived_bits_witness :
    work toyC "a" "b" 8 = toyC.b64Enc (toyC.scryptKDF "a" "b" 8) ∧
    8 * (toyC.scryptKDF "a" "b" 8).length ≠ 8 :=
  work_derived_bits toyC "a" "b" 8 (by decide) (by decide)

/-- C9: toInt32 writes a big-endian unsigned 32-bit value and
readInt32BE reads it back signed: the round trip is the identity on
[0, 2^31) and lands on the negative value n - 2^32 on [2^31, 2^32). -/
theorem toInt32_readInt32BE_roundtrip (n : Nat) (h : n < 2 ^ 32) :
    (n < 2 ^ 31 → readInt32BE (toInt32 n) = (n : Int)) ∧
    (2 ^ 31 ≤ n → readInt32BE (toInt32 n) = (n : Int) - 2 ^ 32 ∧
      readInt32BE (toInt32 n) < 0) := by
  have e : readInt32BE (toInt32 n) =
      if n < 2 ^ 31 then (n : Int) else (n : Int) - 2 ^ 32 := by
    simp only [toInt32, readInt32BE, List.getD_cons_zero, List.getD_cons_succ]
    have hn : n % 2 ^ 32 = n := Nat.mod_eq_of_lt h
    rw [hn]
    have e2 : ((n / 2 ^ 24 % 256 * 256 + n / 2 ^ 16 % 256) * 256 +
        n / 2 ^ 8 % 256) * 256 + n % 256 = n := by omega
    rw [e2]
  constructor
  · intro h1
    rw [e, if_pos h1]
  · intro h1
    rw [e, if_neg (by omega)]
    refine ⟨rfl, ?_⟩
    have hcast : (n : Int) < 2 ^ 32 := by exact_mod_cast h
    omega

/-- Witness for C9: the round trip at 5 gives back 5, and at 2^31 gives
the negative value 2^31 - 2^32. -/
theorem toInt32_readInt32BE_roundtrip_witness :
    readInt32BE (toInt32 5) = (5 : Int) ∧
    readInt32BE (toInt32 (2 ^ 31)) = ((2 ^ 31 : Nat) : Int) - 2 ^ 32 :=
  ⟨(toInt32_readInt32BE_roundtrip 5 (by norm_num)).1 (by norm_num),
   ((toInt32_readInt32BE_roundtrip (2 ^ 31) (by norm_num)).2 (by norm_num)).1⟩

/-- C10 counterexample: an envelope of 5 bytes whose first four bytes
are present in the file yields the authenticator length prefix 1, not 0,
so a short envelope does not always read zero length prefixes. -/
theorem short_envelope_nonzero_size_counterexample :
    ([0, 0, 0, 1, 0] : Bytes).length < 8 ∧
    readInt32BE (readChunkFromFile ([0, 0, 0, 1, 0] : Bytes) 0 4) ≠ 0 := by
  decide

/-- C10 amended: readChunkFromFile always resolves with exactly
fin - start bytes, bytes present in the file are copied and bytes past
the end of the file are zero; consequently the header reads of
decryptFile never fail on a short envelope, missing header bytes are
read as zero, and on an empty envelope both length prefixes read 0. -/
theorem readChunkFromFile_spec (contents : Bytes) (start fin : Nat)
    (h : start ≤ fin) :
    (readChunkFromFile contents start fin).length = fin - start ∧
    (∀ i, i < fin - start →
      (readChunkFromFile contents start fin).getD i 0 =
        contents.getD (start + i) 0) ∧
    (∀ i, i < fin - start → contents.length ≤ start + i →
      (readChunkFromFile contents start fin).getD i 0 = 0) ∧
    readInt32BE (readChunkFromFile ([] : Bytes) 0 4) = 0 ∧
    readInt32BE (readChunkFromFile ([] : Bytes) 4 8) = 0 := by
  have hget : ∀ i, i < fin - start →
      (readChunkFromFile contents start fin).getD i 0 =
        contents.getD (start + i) 0 := by
    intro i hi
    unfold readChunkFromFile
    rw [List.getD_eq_getElem?_getD, List.getElem?_map, List.getElem?_range hi]
    simp [List.getD]
  refine ⟨by simp [readChunkFromFile], hget, ?_, by decide, by decide⟩
  intro i hi hlen
  rw [hget i hi]
  exact List.getD_eq_default _ _ hlen

/-- Witness for C10 amended: a chunk of [0, 4) from a 2-byte file has
length 4. -/
theorem readChunkFromFile_spec_witness :
    (readChunkFromFile ([5, 6] : Bytes) 0 4).length = 4 - 0 :=
  (readChunkFromFile_spec [5, 6] 0 4 (by decide)).1

/-- Folding the hash update over a list of chunks accumulates exactly
the concatenation of the chunks. -/
lemma foldl_update_acc (chunks : List Bytes) (a : Bytes) :
    (chunks.foldl HashState.update ⟨a⟩).acc = a ++ chunks.flatten := by
  induction chunks generalizing a with
  | nil => simp
  | cons c cs ih => simp [HashState.update, ih]

/-- C5: signing a message with the private half and verifying with the
public half succeeds, and verifying the same authenticator against any
distinct expected message fails. Hypotheses are the documented
behaviours of the external primitives at the data used: base64
decode inverts encode, publicDecrypt inverts privateEncrypt for a
matching pair, and utf-8 decode inverts encode on the message. -/
theorem sign_verify_sound_and_tamper (C : Crypto) (K : Pair) (M Mt : String)
    (hb64 : C.b64Dec (C.b64Enc (C.privateEncrypt K.priv (C.utf8Enc M))) =
      C.privateEncrypt K.priv (C.utf8Enc M))
    (hrsa : C.publicDecrypt K.pub (C.privateEncrypt K.priv (C.utf8Enc M)) =
      .ok (C.utf8Enc M))
    (hutf : C.utf8Dec (C.utf8Enc M) = M) :
    verify C K (sign C M K) M = true ∧
    (Mt ≠ M → verify C K (sign C M K) Mt = false) := by
  have base : ∀ expected, verify C K (sign C M K) expected = (M == expected) := by
    intro expected
    simp only [verify, verifyViaAddress, sign]
    rw [hb64, hrsa]
    show (C.utf8Dec (C.utf8Enc M) == expected) = (M == expected)
    rw [hutf]
  constructor
  · rw [base]
    simp
  · intro hne
    rw [base]
    rw [beq_eq_false_iff_ne]
    exact fun he => hne he.symm

/-- Witness for C5: in the concrete model the pair pairA signs the
message m; verification succeeds on m and fails on x. -/
theorem sign_verify_sound_and_tamper_witness :
    verify toyC pairA (sign toyC "m" pairA) "m" = true ∧
    verify toyC pairA (sign toyC "m" pairA) "x" = false :=
  ⟨(sign_verify_sound_and_tamper toyC pairA "m" "x"
      (by decide) (by decide) (by decide)).1,
   (sign_verify_sound_and_tamper toyC pairA "m" "x"
      (by decide) (by decide) (by decide)).2 (by decide)⟩

/-- C6: hashing bytes in one shot and hashing the same bytes pushed
through the incremental hash object in any chunking yield the same
digest: hashFileStreamed over any chunk list whose concatenation is the
utf-8 encoding of the data equals hash of the data. -/
theorem hash_hashStream_equiv (C : Crypto) (s : String) (chunks : List Bytes)
    (h : chunks.flatten = C.utf8Enc s) :
    hashFileStreamed C chunks = hash C s := by
  simp only [hashFileStreamed, hash, HashState.digest, HashState.update]
  rw [foldl_update_acc]
  simp [h]

/-- Witness for C6: the bytes of ab hashed as two one-byte chunks give
the digest of hashing ab directly. -/
theorem hash_hashStream_equiv_witness :
    hashFileStreamed toyC [[97], [98]] = hash toyC "ab" :=
  hash_hashStream_equiv toyC "ab" [[97], [98]] (by decide)

/-- C7: decrypting an asymmetrically encrypted payload with the matching
private key returns the plaintext. Hypotheses are the documented
behaviours of the external primitives at the data used: base64 decode
inverts encode, privateDecrypt inverts publicEncrypt for a matching
pair, and utf-8 decode inverts encode on the plaintext. -/
theorem decrypt_encrypt_roundtrip (C : Crypto) (K : Pair) (P : String)
    (hb64 : C.b64Dec (C.b64Enc (C.publicEncrypt K.pub (C.utf8Enc P))) =
      C.publicEncrypt K.pub (C.utf8Enc P))
    (hrsa : C.privateDecrypt K.priv (C.publicEncrypt K.pub (C.utf8Enc P)) =
      .ok (C.utf8Enc P))
    (hutf : C.utf8Dec (C.utf8Enc P) = P) :
    decrypt C (encryptForAddress C P K.pub) K = .ok P := by
  simp only [decrypt, encryptForAddress]
  rw [hb64, hrsa]
  simp [Except.map, hutf]

/-- Witness for C7: the concrete model round trips the plaintext hello
through pairB. -/
theorem decrypt_encrypt_roundtrip_witness :
    decrypt toyC (encryptForAddress toyC "hello" pairB.pub) pairB = .ok "hello" :=
  decrypt_encrypt_roundtrip toyC pairB "hello" (by decide) (by decide) (by decide)

/-- C1: the file round trip never succeeds. In a concrete model whose
primitives satisfy all the inversion laws a correct implementation
relies on, encrypting a one-byte file and decrypting the envelope with
the right keys throws the integrity error: encryptFile signs the utf-8
decoding of the digest bytes while decryptFile verifies the
authenticator against the base64 digest string, so verification always
returns false. -/
theorem encryptFile_decryptFile_integrity_error :
    (decryptFile toyC
        (encryptFile toyC [104] pairA pairB.pub
          (List.replicate 16 65) (List.replicate 16 66))
        pairA.pub pairB).1 = .error "File integrity failed." ∧
    (decryptFile toyC
        (encryptFile toyC [104] pairA pairB.pub
          (List.replicate 16 65) (List.replicate 16 66))
        pairA.pub pairB).2 = [.verifyMac false] := by
  decide

/-- beWord decodes the 4 bytes written by toInt32 back to the value
modulo 2^32. -/
lemma beWord_toInt32 (n : Nat) : beWord (toInt32 n) = n % 2 ^ 32 := by
  simp only [toInt32, beWord, List.foldl]
  omega

/-- Extraction of the five fields of a length-prefixed concatenation
with two 4-byte prefixes. -/
lemma layout_extract (A B mac kb ct : Bytes) (hA : A.length = 4)
    (hB : B.length = 4) :
    (A ++ B ++ mac ++ kb ++ ct).take 4 = A ∧
    ((A ++ B ++ mac ++ kb ++ ct).drop 4).take 4 = B ∧
    ((A ++ B ++ mac ++ kb ++ ct).drop 8).take mac.length = mac ∧
    ((A ++ B ++ mac ++ kb ++ ct).drop (8 + mac.length)).take kb.length = kb ∧
    (A ++ B ++ mac ++ kb ++ ct).drop (8 + mac.length + kb.length) = ct := by
  have e1 : A ++ B ++ mac ++ kb ++ ct = A ++ (B ++ (mac ++ (kb ++ ct))) := by simp
  have e2 : A ++ B ++ mac ++ kb ++ ct = (A ++ B) ++ (mac ++ (kb ++ ct)) := by simp
  have e3 : A ++ B ++ mac ++ kb ++ ct = ((A ++ B) ++ mac) ++ (kb ++ ct) := by simp
  have e4 : A ++ B ++ mac ++ kb ++ ct = (((A ++ B) ++ mac) ++ kb) ++ ct := rfl
  have h8 : (A ++ B).length = 8 := by simp [hA, hB]
  have h8m : ((A ++ B) ++ mac).length = 8 + mac.length := by
    simp [hA, hB]
    omega
  have h8mk : (((A ++ B) ++ mac) ++ kb).length = 8 + mac.length + kb.length := by
    simp [hA, hB]
    omega
  refine ⟨?_, ?_, ?_, ?_, ?_⟩
  · rw [e1, List.take_left' hA]
  · rw [e1, List.drop_left' hA, List.take_left' hB]
  · rw [e2, List.drop_left' h8, List.take_left]
  · rw [e3, List.drop_left' h8m, List.take_left]
  · rw [e4, List.drop_left' h8mk]

/-- C3: every envelope produced by encryptFile carries the big-endian
length of the authenticator in bytes [0, 4), the big-endian length of
the wrapped secret in bytes [4, 8), then the authenticator region, the
wrapped-secret region and the ciphertext as the remainder, with the two
prefixes equal to the exact byte lengths of their regions. -/
theorem encryptFile_layout (C : Crypto) (source : Bytes) (from_key : Pair)
    (toPub : String) (key iv : Bytes)
    (hLa : (envMac C from_key (cipherContent C key iv source)).length < 2 ^ 32)
    (hLk : (wrapSecret C toPub key iv).length < 2 ^ 32) :
    beWord ((encryptFile C source from_key toPub key iv).take 4) =
      (envMac C from_key (cipherContent C key iv source)).length ∧
    beWord (((encryptFile C source from_key toPub key iv).drop 4).take 4) =
      (wrapSecret C toPub key iv).length ∧
    ((encryptFile C source from_key toPub key iv).drop 8).take
      (envMac C from_key (cipherContent C key iv source)).length =
      envMac C from_key (cipherContent C key iv source) ∧
    ((encryptFile C source from_key toPub key iv).drop
      (8 + (envMac C from_key (cipherContent C key iv source)).length)).take
      (wrapSecret C toPub key iv).length = wrapSecret C toPub key iv ∧
    (encryptFile C source from_key toPub key iv).drop
      (8 + (envMac C from_key (cipherContent C key iv source)).length +
        (wrapSecret C toPub key iv).length) =
      cipherContent C key iv source := by
  set mac := envMac C from_key (cipherContent C key iv source) with hmac
  set kb := wrapSecret C toPub key iv with hkb
  set ct := cipherContent C key iv source with hct
  have henv : encryptFile C source from_key toPub key iv =
      toInt32 mac.length ++ toInt32 kb.length ++ mac ++ kb ++ ct := rfl
  have hx := layout_extract (toInt32 mac.length) (toInt32 kb.length) mac kb ct rfl rfl
  rw [henv]
  refine ⟨?_, ?_, hx.2.2.1, hx.2.2.2.1, hx.2.2.2.2⟩
  · rw [hx.1, beWord_toInt32, Nat.mod_eq_of_lt hLa]
  · rw [hx.2.1, beWord_toInt32, Nat.mod_eq_of_lt hLk]

/-- Witness for C3: the length prefix of a concrete envelope decodes to
the byte length of its authenticator region. -/
theorem encryptFile_layout_witness :
    beWord ((encryptFile toyC [104] pairA pairB.pub
        (List.replicate 16 65) (List.replicate 16 66)).take 4) =
      (envMac toyC pairA (cipherContent toyC
        (List.replicate 16 65) (List.replicate 16 66) [104])).length :=
  (encryptFile_layout toyC [104] pairA pairB.pub
    (List.replicate 16 65) (List.replicate 16 66) (by decide) (by decide)).1

/-- C2: decryptFile verifies the authenticator before decrypting
anything. Whenever verification returns false, the run ends with the
integrity error and the trace holds neither a wrapped-secret decryption
nor a ciphertext decryption; and whenever either decryption happens, the
first event of the run is a successful verification. -/
theorem decryptFile_auth_before_decrypt (C : Crypto) (envelope : Bytes)
    (sender : String) (receiver_key : Pair) :
    (Ev.verifyMac false ∈ (decryptFile C envelope sender receiver_key).2 →
      (decryptFile C envelope sender receiver_key).1 =
        .error "File integrity failed." ∧
      Ev.decryptSecret ∉ (decryptFile C envelope sender receiver_key).2 ∧
      Ev.decryptContent ∉ (decryptFile C envelope sender receiver_key).2) ∧
    ((Ev.decryptSecret ∈ (decryptFile C envelope sender receiver_key).2 ∨
      Ev.decryptContent ∈ (decryptFile C envelope sender receiver_key).2) →
      (decryptFile C envelope sender receiver_key).2.head? =
        some (Ev.verifyMac true)) := by
  simp only [decryptFile]
  repeat' split
  all_goals constructor <;> intro h <;> simp_all

/-- Witness for C2: a concrete envelope whose authenticator does not
verify makes decryptFile fail with the integrity error. -/
theorem decryptFile_auth_before_decrypt_witness :
    (decryptFile toyC (toInt32 1 ++ toInt32 1 ++ [1, 2, 3]) "" pairB).1 =
      .error "File integrity failed." :=
  ((decryptFile_auth_before_decrypt toyC
    (toInt32 1 ++ toInt32 1 ++ [1, 2, 3]) "" pairB).1 (by decide)).1

end SEA
